import Mathlib

/-!
Verification of the projection-and-evaluation engine of the LTP-system
repository (files `main_ltp_system.py` and
`src/ltp_system/plotter/Figure_6a.py`), against its natural-language
specification.

The Python code is shallowly embedded: numpy/torch tensors become functions
`Fin n → Fin d → ℚ` (floating-point data is rational), per-sample loops
become `Finset` sums, and the fallible orchestration functions return
`Except`.  Library functions from sklearn that the code calls
(`mean_absolute_percentage_error`, `mean_squared_error`) are embedded from
their documented semantics (eps-flooring of the denominator at the float64
machine epsilon, column-wise averaging).  Repository functions that the
evaluated files import but whose sources are not part of this development
(`projection.py`, `pinn_nn.py`, `data_prep.py`) are modelled from the
specification and marked as such in their doc comments.
-/

namespace LTP

/-! ## Evaluation layer: sklearn metrics as called by `evaluate_model` and
`evaluate_projection` (Figure_6a.py lines 138-163) -/

/-- `np.finfo(np.float64).eps = 2⁻⁵²`, the epsilon used by sklearn's
`mean_absolute_percentage_error` to floor the denominator `|y_true|`. -/
def eps64 : ℚ := 1 / 2 ^ 52

/-- sklearn's `mean_absolute_percentage_error(y_true, y_pred)` with default
arguments: per-entry error `|pred − true| / max(|true|, eps)`, averaged over
the samples of each output column, then averaged over the output columns.
This is the MAPE computed at Figure_6a.py lines 145 and 160. -/
def mean_absolute_percentage_error {n d : ℕ}
    (y_true y_pred : Fin n → Fin d → ℚ) : ℚ :=
  (∑ j : Fin d,
      (∑ i : Fin n, |y_pred i j - y_true i j| / max |y_true i j| eps64) / n) / d

/-- sklearn's `mean_squared_error(y_true, y_pred)` with default arguments:
per-entry squared error, averaged over the samples of each output column,
then averaged over the output columns.  Used at Figure_6a.py lines 148
and 161 (inside `np.sqrt`). -/
def mean_squared_error {n d : ℕ}
    (y_true y_pred : Fin n → Fin d → ℚ) : ℚ :=
  (∑ j : Fin d, (∑ i : Fin n, (y_true i j - y_pred i j) ^ 2) / n) / d

/-- The accumulator of `get_mape_uncertainty` (Figure_6a.py lines 111-133):
the loop over samples `i` adds, for the entries `j` whose target is
non-zero, the square of `uncertainty / target`. -/
def mape_uncertainty_acc {n d : ℕ}
    (normalized_targets normalized_model_pred_uncertainty :
      Fin n → Fin d → ℚ) : ℚ :=
  ∑ i : Fin n,
    ∑ j ∈ Finset.univ.filter (fun j => normalized_targets i j ≠ 0),
      (normalized_model_pred_uncertainty i j / normalized_targets i j) ^ 2

/-- `get_mape_uncertainty` (Figure_6a.py lines 111-135): the square root of
the masked accumulated sum, divided by the number `n` of samples. -/
noncomputable def get_mape_uncertainty {n d : ℕ}
    (normalized_targets normalized_model_pred_uncertainty :
      Fin n → Fin d → ℚ) : ℝ :=
  Real.sqrt (mape_uncertainty_acc normalized_targets
      normalized_model_pred_uncertainty) / n

/-- The metric part of `evaluate_model` (Figure_6a.py lines 138-150): given
the normalized targets, the ensemble-averaged predictions and the per-point
predictive uncertainty (the latter two produced by the external ensemble
inference calls), return the MAPE, the propagated MAPE uncertainty and the
RMSE. -/
noncomputable def evaluate_model_metrics {n d : ℕ}
    (normalized_targets normalized_model_predictions
     normalized_model_pred_uncertainty : Fin n → Fin d → ℚ) :
    ℚ × ℝ × ℝ :=
  (mean_absolute_percentage_error normalized_targets
      normalized_model_predictions,
   get_mape_uncertainty normalized_targets normalized_model_pred_uncertainty,
   Real.sqrt (mean_squared_error normalized_targets
      normalized_model_predictions))

/-- The metric part of `evaluate_projection` (Figure_6a.py lines 153-163):
given the normalized targets and the projected predictions, return the MAPE
and the RMSE. -/
noncomputable def evaluate_projection_metrics {n d : ℕ}
    (normalized_targets normalized_proj_predictions : Fin n → Fin d → ℚ) :
    ℚ × ℝ :=
  (mean_absolute_percentage_error normalized_targets
      normalized_proj_predictions,
   Real.sqrt (mean_squared_error normalized_targets
      normalized_proj_predictions))

/-! ## `compute_parameters` (Figure_6a.py lines 166-174) -/

/-- `compute_parameters(layer_config)`: prepend the 3 input features and
append the 17 output features, sum the products of consecutive layer widths
(the weights) and the widths of the slice `layer_config[1:-1]` (one bias per
hidden neuron). -/
def compute_parameters (layer_config : List ℕ) : ℕ :=
  let lc := 3 :: layer_config ++ [17]
  let hidden_layers := (lc.drop 1).dropLast
  let n_weights := ∑ i ∈ Finset.range (lc.length - 1), lc.getD i 0 * lc.getD (i + 1) 0
  let n_biases := hidden_layers.sum
  n_weights + n_biases

/-! ## CSV column sets (`run_experiment_6a`, Figure_6a.py lines 269-306, and
`get_laws_dict`, main_ltp_system.py lines 222-240) -/

/-- The keys of the `data` dictionary that `run_experiment_6a` turns into a
DataFrame and writes to `results.csv` (Figure_6a.py lines 291-300), in
source order. -/
def run_experiment_6a_columns : List String :=
  ["architectures", "num_params", "mapes_nn", "uncertanties_mape_nn",
   "mapes_proj", "rmses_nn", "rmses_proj", "model_training_time"]

/-- A Python dict as an association list (keys in insertion order). -/
abbrev PyDict (α : Type) := List (String × α)

/-- The keys (column names, for a DataFrame built from a dict of columns)
of a `PyDict`. -/
def PyDict.keys {α : Type} (d : PyDict α) : List String := d.map Prod.fst

/-- Modelled from the spec: `compute_mape_physical_laws` (projection.py, not
part of this development) returns a dict with the single key given by its
`model_name` argument (`"nn_model"`, `"pinn_model"`), mapping each law name
to its compliance error; `compute_mape_physical_laws_loki` likewise with key
`"loki_model"`.  main_ltp_system.py line 229 reads
`nn_laws_dict['nn_model'].keys()`, confirming the single-key shape. -/
def compute_mape_physical_laws (model_name : String)
    (per_law : PyDict ℚ) : PyDict (PyDict ℚ) :=
  [(model_name, per_law)]

/-- `get_laws_dict` (main_ltp_system.py lines 222-240): merge the three
per-variant dicts; the DataFrame written to
`physical_compliance_errors.csv` has these keys as columns and the law
names of the nn dict as its index.  Returns (columns, index). -/
def get_laws_dict (nn_laws pinn_laws loki_laws : PyDict ℚ) :
    List String × List String :=
  let nn_laws_dict := compute_mape_physical_laws "nn_model" nn_laws
  let pinn_laws_dict := compute_mape_physical_laws "pinn_model" pinn_laws
  let loki_laws_dict := compute_mape_physical_laws "loki_model" loki_laws
  let laws_dict := nn_laws_dict ++ pinn_laws_dict ++ loki_laws_dict
  (laws_dict.keys, nn_laws.keys)

/-! ## Projection engine (modelled from the spec) -/

/-- Modelled from the spec: the per-sample correction of the Projection
Engine (`projection.py`, not part of this development).  For a scalar
constraint with residual `r` and Jacobian row `J` at the linearization
point, and a weight matrix with inverse `w_inv`, the closed-form solution
of `min Δyᵀ W Δy subject to J Δy = -r` is
`Δy = -W⁻¹Jᵀ (J W⁻¹ Jᵀ)⁻¹ r`. -/
def projCorrection {d : ℕ} (w_inv : Matrix (Fin d) (Fin d) ℚ)
    (J : Fin d → ℚ) (r : ℚ) : Fin d → ℚ :=
  fun k => -(w_inv.mulVec J k * r / Matrix.dotProduct J (w_inv.mulVec J))

/-- Modelled from the spec: `get_average_predictions_projected`
(`projection.py`, not part of this development), as called by
`evaluate_projection` (Figure_6a.py line 156).  Per sample: de-normalize
the raw prediction, evaluate the constraint residual and Jacobian there,
apply the closed-form correction, and re-normalize. -/
def get_average_predictions_projected {n d : ℕ}
    (normalized_model_predictions : Fin n → Fin d → ℚ)
    (w_inv : Matrix (Fin d) (Fin d) ℚ)
    (constraint : (Fin d → ℚ) → ℚ)
    (jacobian : (Fin d → ℚ) → Fin d → ℚ)
    (denormalize renormalize : (Fin d → ℚ) → (Fin d → ℚ)) :
    Fin n → Fin d → ℚ :=
  fun i =>
    let y := denormalize (normalized_model_predictions i)
    let corr := projCorrection w_inv (jacobian y) (constraint y)
    renormalize (fun k => y k + corr k)

/-! ## Ensemble aggregator (modelled from the spec) -/

/-- Modelled from the spec: `get_predictive_uncertainty` (`pinn_nn.py`, not
part of this development), as called by `evaluate_model` (Figure_6a.py
line 142): the elementwise standard deviation across the `m` models'
predictions divided by `sqrt(m)` (the standard error of the mean), per
sample and output dimension. -/
noncomputable def get_predictive_uncertainty {m n d : ℕ}
    (model_predictions : Fin m → Fin n → Fin d → ℚ) : Fin n → Fin d → ℝ :=
  fun i j =>
    let mean : ℚ := (∑ k : Fin m, model_predictions k i j) / m
    Real.sqrt (((∑ k : Fin m, (model_predictions k i j - mean) ^ 2) / m : ℚ))
      / Real.sqrt m

/-! ## `load_data` (Figure_6a.py lines 39-55) -/

/-- The fitted Preprocessing Info handed to `load_data`: the lists of
skewed-feature indices and the per-feature forward scaler transforms, for
the input and the output space (the fitting itself lives in
`data_prep.py`, outside this development, so scalers are abstract
per-feature maps). -/
structure PreprocessingInfo (din dout : ℕ) where
  skewed_features_in : List (Fin din)
  skewed_features_out : List (Fin dout)
  scalers_input : Fin din → ℝ → ℝ
  scalers_output : Fin dout → ℝ → ℝ

/-- `torch.log1p`. -/
noncomputable def log1p (x : ℝ) : ℝ := Real.log (1 + x)

/-- `load_data` (Figure_6a.py lines 39-55) after the dataset has been read:
when the skewed-feature index list is non-empty, replace those columns by
their `log1p`; then apply each per-feature scaler to its column and
concatenate the columns — for the inputs and for the targets. -/
noncomputable def load_data {n din dout : ℕ} (pre : PreprocessingInfo din dout)
    (test_inputs : Fin n → Fin din → ℝ) (test_targets : Fin n → Fin dout → ℝ) :
    (Fin n → Fin din → ℝ) × (Fin n → Fin dout → ℝ) :=
  let inputs1 := if 0 < pre.skewed_features_in.length then
      (fun i j => if j ∈ pre.skewed_features_in
        then log1p (test_inputs i j) else test_inputs i j)
    else test_inputs
  let targets1 := if 0 < pre.skewed_features_out.length then
      (fun i j => if j ∈ pre.skewed_features_out
        then log1p (test_targets i j) else test_targets i j)
    else test_targets
  (fun i j => pre.scalers_input j (inputs1 i j),
   fun i j => pre.scalers_output j (targets1 i j))

/-! ## `get_random_architectures` (Figure_6a.py lines 199-239) -/

/-- The sweep options read by `get_random_architectures`. -/
structure ArchOptions where
  min_neurons_per_layer : ℕ
  max_neurons_per_layer : ℕ
  n_steps : ℕ
  max_hidden_layers : ℕ
  min_hidden_layers : ℕ

/-- `random.randint(a, b)`: an integer in `[a, b]`, drawn here from an
explicit seed so that the sampling is a pure function of the random
stream. -/
def randint (a b seed : ℕ) : ℕ := a + seed % (b - a + 1)

/-- `generate_random_architecture` (Figure_6a.py lines 201-206): draw the
number of hidden layers, then one width per layer, from successive slots
of the random stream. -/
def generate_random_architecture (min_layers max_layers min_neurons max_neurons : ℕ)
    (oracle : ℕ → ℕ) : List ℕ :=
  let num_layers := randint min_layers max_layers (oracle 0)
  (List.range num_layers).map (fun k => randint min_neurons max_neurons (oracle (k + 1)))

/-- `compute_parameters` of the all-minimal architecture (Figure_6a.py
line 215). -/
def min_parameters (o : ArchOptions) : ℕ :=
  compute_parameters (List.replicate o.min_hidden_layers o.min_neurons_per_layer)

/-- `compute_parameters` of the all-maximal architecture (Figure_6a.py
line 216). -/
def max_parameters (o : ArchOptions) : ℕ :=
  compute_parameters (List.replicate o.max_hidden_layers o.max_neurons_per_layer)

/-- `np.linspace(min_p, max_p, n + 1)`: the `i`-th bin edge. -/
def bins (min_p max_p : ℚ) (n i : ℕ) : ℚ := min_p + i * (max_p - min_p) / n

/-- The loop-body test `bins[i] <= total_params < bins[i + 1]`
(Figure_6a.py line 234). -/
def inBinB (min_p max_p : ℚ) (n i : ℕ) (p : ℚ) : Bool :=
  decide (bins min_p max_p n i ≤ p) && decide (p < bins min_p max_p n (i + 1))

/-- The scan over the bins (Figure_6a.py lines 233-237): the first bin
index whose half-open interval contains `p` and that is not yet filled. -/
def findBin (min_p max_p : ℚ) (n : ℕ) (filled : List Bool) (p : ℚ) : Option ℕ :=
  (List.range n).find? (fun i =>
    inBinB min_p max_p n i p && !(filled.getD i false))

/-- The `while len(architectures_list) < n_architectures` loop
(Figure_6a.py lines 225-237), with explicit fuel: generate an
architecture; if its parameter count lands in an unfilled bin, append it
and mark the bin, otherwise discard it. -/
def arch_loop (o : ArchOptions) (min_p max_p : ℚ) (oracle : ℕ → ℕ → ℕ) :
    ℕ → List (List ℕ) → List Bool → Option (List (List ℕ))
  | 0, _, _ => none
  | fuel + 1, architectures_list, bin_filled =>
    if o.n_steps ≤ architectures_list.length then some architectures_list
    else
      let architecture := generate_random_architecture o.min_hidden_layers
        o.max_hidden_layers o.min_neurons_per_layer o.max_neurons_per_layer
        (oracle fuel)
      let total_params : ℚ := (compute_parameters architecture : ℚ)
      match findBin min_p max_p o.n_steps bin_filled total_params with
      | some i => arch_loop o min_p max_p oracle fuel
          (architectures_list ++ [architecture]) (bin_filled.set i true)
      | none => arch_loop o min_p max_p oracle fuel architectures_list bin_filled

/-- `get_random_architectures` (Figure_6a.py lines 199-239): run the loop
from the empty list with all `n_steps` bins unfilled. -/
def get_random_architectures (o : ArchOptions) (oracle : ℕ → ℕ → ℕ)
    (fuel : ℕ) : Option (List (List ℕ)) :=
  arch_loop o (min_parameters o) (max_parameters o) oracle fuel []
    (List.replicate o.n_steps false)

/-! ## Checkpoint-loading orchestration (main_ltp_system.py lines 144-219
and Figure_6a.py lines 89-106) -/

/-- The errors the orchestration can raise: the `FileNotFoundError` coming
out of `load_checkpoints`, or a `ValueError` carrying a message. -/
inductive RunError where
  | fileNotFoundError : RunError
  | valueError : String → RunError
deriving DecidableEq

/-- The actionable message raised when the checkpoint is absent and
retraining is disabled (main_ltp_system.py lines 178 and 217, Figure_6a.py
line 106). -/
def checkpointMsg : String :=
  "Checkpoint not found. Set RETRAIN_MODEL to True or provide a valid checkpoint."

/-- The loaded loss-history arrays, by their sizes (all that
`get_trained_nn` inspects). -/
structure LossesDict where
  losses_train_mean_size : ℕ
  losses_val_mean_size : ℕ
  epoch_size : ℕ

/-- `get_trained_nn` (main_ltp_system.py lines 144-180), with the external
training and checkpoint-loading calls abstracted into their results: if
`RETRAIN_MODEL` train; otherwise try to load, turning a
`FileNotFoundError` into a `ValueError` with the actionable message, and
retraining anyway when the loaded loss history is incomplete. -/
def get_trained_nn_main {α : Type} (retrain_model : Bool)
    (train_result : α × LossesDict)
    (load_result : Except RunError (α × LossesDict)) :
    Except RunError (α × LossesDict) :=
  if retrain_model then .ok train_result
  else
    match load_result with
    | .error .fileNotFoundError => .error (.valueError checkpointMsg)
    | .error e => .error e
    | .ok (models, losses) =>
        if losses.losses_train_mean_size = 0 ∨ losses.losses_val_mean_size = 0
            ∨ losses.epoch_size = 0 then
          .ok train_result
        else .ok (models, losses)

/-- `get_trained_pinn` (main_ltp_system.py lines 183-219): same structure
as `get_trained_nn`, reading the `pinn_model` configuration. -/
def get_trained_pinn_main {α : Type} (retrain_model : Bool)
    (train_result : α × LossesDict)
    (load_result : Except RunError (α × LossesDict)) :
    Except RunError (α × LossesDict) :=
  if retrain_model then .ok train_result
  else
    match load_result with
    | .error .fileNotFoundError => .error (.valueError checkpointMsg)
    | .error e => .error e
    | .ok (models, losses) =>
        if losses.losses_train_mean_size = 0 ∨ losses.losses_val_mean_size = 0
            ∨ losses.epoch_size = 0 then
          .ok train_result
        else .ok (models, losses)

/-- `get_trained_nn` of Figure_6a.py (lines 89-106): if `RETRAIN_MODEL`
train (left branch of the sum); otherwise try to load (right branch),
turning a `FileNotFoundError` into a `ValueError` with the actionable
message. -/
def get_trained_nn_fig6a {α β : Type} (retrain_model : Bool)
    (train_result : α) (load_result : Except RunError β) :
    Except RunError (α ⊕ β) :=
  if retrain_model then .ok (.inl train_result)
  else
    match load_result with
    | .error .fileNotFoundError => .error (.valueError checkpointMsg)
    | .error e => .error e
    | .ok v => .ok (.inr v)

end LTP

namespace LTP

/-! ## Theorems for claim C9 -/

/-- C9: for every non-empty list `h = [h1, …, hk]` of hidden-layer sizes,
`compute_parameters h` is the sum of products of consecutive widths of the
extended layer list `[3, h1, …, hk, 17]` plus the sum of the hidden-layer
widths `h1 + ⋯ + hk` — one bias per hidden neuron and no biases for the 17
output neurons. -/
theorem compute_parameters_eq (h : List ℕ) (_hk : 1 ≤ h.length) :
    compute_parameters h =
      (∑ i ∈ Finset.range (h.length + 1),
        (3 :: h ++ [17]).getD i 0 * (3 :: h ++ [17]).getD (i + 1) 0)
      + h.sum := by
  have hslice : (((3 :: h ++ [17]).drop 1).dropLast) = h := by
    simp [List.dropLast_append_of_ne_nil]
  have hlen : (3 :: h ++ [17]).length - 1 = h.length + 1 := by
    simp
  dsimp only [compute_parameters]
  rw [hslice, hlen]

/-- Witness for C9 at the concrete architecture `[4, 5]`:
`3·4 + 4·5 + 5·17 + (4 + 5) = 126`. -/
theorem compute_parameters_eq_witness :
    1 ≤ ([4, 5] : List ℕ).length ∧
      compute_parameters [4, 5] =
        (∑ i ∈ Finset.range (([4, 5] : List ℕ).length + 1),
          (3 :: [4, 5] ++ [17]).getD i 0 * (3 :: [4, 5] ++ [17]).getD (i + 1) 0)
        + ([4, 5] : List ℕ).sum :=
  ⟨by decide, compute_parameters_eq [4, 5] (by decide)⟩

/-! ## Theorems for claim C8 -/

/-- Counterexample to C8: the results table written by `run_experiment_6a`
does not have the column set claimed by the spec — the claimed column
`params` is absent (the actual column is `num_params`), and the table has
an extra column `architectures` the claim does not list. -/
theorem run_experiment_6a_columns_counterexample :
    "params" ∉ run_experiment_6a_columns ∧
      "architectures" ∈ run_experiment_6a_columns ∧
      "params" ∈ ["params", "mapes_nn", "uncertanties_mape_nn", "mapes_proj",
        "rmses_nn", "rmses_proj", "model_training_time"] := by
  decide

/-- C8 (amended): the results table written by `run_experiment_6a` has
exactly the columns `architectures`, `num_params`, `mapes_nn`,
`uncertanties_mape_nn`, `mapes_proj`, `rmses_nn`, `rmses_proj`,
`model_training_time`; and for all per-variant law tables the compliance
table written by `get_laws_dict` has one column per model variant
(`nn_model`, `pinn_model`, `loki_model`) and is indexed by the nn table's
law names. -/
theorem run_experiment_6a_and_laws_columns :
    run_experiment_6a_columns =
      ["architectures", "num_params", "mapes_nn", "uncertanties_mape_nn",
       "mapes_proj", "rmses_nn", "rmses_proj", "model_training_time"] ∧
    ∀ nn_laws pinn_laws loki_laws : PyDict ℚ,
      (get_laws_dict nn_laws pinn_laws loki_laws).1 =
        ["nn_model", "pinn_model", "loki_model"] ∧
      (get_laws_dict nn_laws pinn_laws loki_laws).2 = nn_laws.keys :=
  ⟨rfl, fun _ _ _ => ⟨rfl, rfl⟩⟩

/-! ## Theorems for claim C1 -/

/-- The spec's example target batch `[0, 2, 4]`, as a 3-sample,
1-dimensional matrix. -/
def exTargets : Fin 3 → Fin 1 → ℚ :=
  fun i _ => if i.val = 0 then 0 else if i.val = 1 then 2 else 4

/-- The spec's example prediction batch `[5, 2.2, 4.4]`. -/
def exPreds : Fin 3 → Fin 1 → ℚ :=
  fun i _ => if i.val = 0 then 5 else if i.val = 1 then 11/5 else 22/5

/-- Counterexample to C1: on the spec's own example (targets `[0, 2, 4]`,
predictions `[5, 2.2, 4.4]`) the MAPE computed by the Evaluation Layer is
not `0.1`: sklearn's `mean_absolute_percentage_error` does not exclude the
zero-target entry but floors its denominator at `eps64`, so that entry
contributes the huge term `5/eps64 = 5·2⁵²` and the result is far from
`1/10`. -/
theorem mean_absolute_percentage_error_counterexample :
    mean_absolute_percentage_error exTargets exPreds ≠ 1 / 10 := by
  unfold mean_absolute_percentage_error exTargets exPreds eps64
  norm_num [Fin.sum_univ_succ, abs_of_nonneg]

/-- C1 (amended): the MAPE computed by the Evaluation Layer is the mean of
`|pred − target| / max(|target|, eps64)` over ALL samples and dimensions —
no entry is excluded; in the special case where every target has
`|target| ≥ eps64` it equals the mean of `|pred − target| / |target|` over
all `n·d` entries. -/
theorem mean_absolute_percentage_error_eq (n d : ℕ)
    (t p : Fin n → Fin d → ℚ) :
    mean_absolute_percentage_error t p =
        (∑ i : Fin n, ∑ j : Fin d, |p i j - t i j| / max |t i j| eps64)
          / ((n : ℚ) * d) ∧
    ((∀ i j, eps64 ≤ |t i j|) →
      mean_absolute_percentage_error t p =
        (∑ i : Fin n, ∑ j : Fin d, |p i j - t i j| / |t i j|)
          / ((n : ℚ) * d)) := by
  have key : mean_absolute_percentage_error t p =
      (∑ i : Fin n, ∑ j : Fin d, |p i j - t i j| / max |t i j| eps64)
        / ((n : ℚ) * d) := by
    unfold mean_absolute_percentage_error
    rw [← Finset.sum_div, div_div]
    congr 1
    exact Finset.sum_comm
  refine ⟨key, fun h => ?_⟩
  rw [key]
  congr 1
  refine Finset.sum_congr rfl fun i _ => Finset.sum_congr rfl fun j _ => ?_
  rw [max_eq_left (h i j)]

/-- The all-non-zero target batch `[2, 4]` used by the C1 witness. -/
def exTargets2 : Fin 2 → Fin 1 → ℚ := fun i _ => if i.val = 0 then 2 else 4

/-- The prediction batch `[5/2, 5]` used by the C1 witness. -/
def exPreds2 : Fin 2 → Fin 1 → ℚ := fun i _ => if i.val = 0 then 5/2 else 5

/-- Witness for C1 at targets `[2, 4]`, predictions `[5/2, 5]`: every
target exceeds `eps64`, so the MAPE is the unexcluded mean of relative
errors over all entries. -/
theorem mean_absolute_percentage_error_eq_witness :
    (∀ i j, eps64 ≤ |exTargets2 i j|) ∧
      mean_absolute_percentage_error exTargets2 exPreds2 =
        (∑ i : Fin 2, ∑ j : Fin 1,
            |exPreds2 i j - exTargets2 i j| / |exTargets2 i j|)
          / ((2 : ℚ) * 1) :=
  ⟨fun i j => by unfold exTargets2 eps64; split <;> norm_num,
    (mean_absolute_percentage_error_eq 2 1 exTargets2 exPreds2).2
      (fun i j => by unfold exTargets2 eps64; split <;> norm_num)⟩

/-! ## Theorems for claim C2 -/

/-- A vector `[5, 1, 1]` read either as predictions or as per-point
uncertainties; it differs from `exVec7` only at the zero-target entry of
`exTargets`. -/
def exVec5 : Fin 3 → Fin 1 → ℚ := fun i _ => if i.val = 0 then 5 else 1

/-- A vector `[7, 1, 1]`; it differs from `exVec5` only at the zero-target
entry of `exTargets`. -/
def exVec7 : Fin 3 → Fin 1 → ℚ := fun i _ => if i.val = 0 then 7 else 1

/-- Counterexample to C2's mask-consistency conjunct: a zero-target entry
is excluded from `get_mape_uncertainty` (changing the uncertainty there
does not change the result) but is NOT excluded from the MAPE computation
(changing the prediction there changes the MAPE), so the two computations
do not use the same non-zero-target mask. -/
theorem get_mape_uncertainty_mask_counterexample :
    get_mape_uncertainty exTargets exVec5 = get_mape_uncertainty exTargets exVec7 ∧
    mean_absolute_percentage_error exTargets exVec5 ≠
      mean_absolute_percentage_error exTargets exVec7 := by
  constructor
  · have h : mape_uncertainty_acc exTargets exVec5 =
        mape_uncertainty_acc exTargets exVec7 := by
      unfold mape_uncertainty_acc exTargets exVec5 exVec7
      norm_num [Fin.sum_univ_succ, Finset.sum_filter]
    unfold get_mape_uncertainty
    rw [h]
  · unfold mean_absolute_percentage_error exTargets exVec5 exVec7 eps64
    norm_num [Fin.sum_univ_succ, abs_of_nonneg]

/-- C2 (amended): `get_mape_uncertainty` returns
`sqrt(Σ_{(i,j) : tᵢⱼ ≠ 0} (σᵢⱼ/tᵢⱼ)²) / n` where the sum ranges over the
(sample, dimension) pairs with non-zero target and `n` is the number of
samples.  (Its non-zero-target mask is, however, not the mask used by the
MAPE computation, which excludes nothing.) -/
theorem get_mape_uncertainty_eq (n d : ℕ) (t u : Fin n → Fin d → ℚ) :
    get_mape_uncertainty t u =
      Real.sqrt ((∑ q ∈ Finset.univ.filter
          (fun q : Fin n × Fin d => t q.1 q.2 ≠ 0),
            (u q.1 q.2 / t q.1 q.2) ^ 2 : ℚ)) / n := by
  have h : mape_uncertainty_acc t u =
      (∑ q ∈ Finset.univ.filter (fun q : Fin n × Fin d => t q.1 q.2 ≠ 0),
        (u q.1 q.2 / t q.1 q.2) ^ 2) := by
    unfold mape_uncertainty_acc
    rw [Finset.sum_filter, ← Finset.univ_product_univ, Finset.sum_product]
    refine Finset.sum_congr rfl fun i _ => ?_
    rw [Finset.sum_filter]
  unfold get_mape_uncertainty
  rw [h]

/-! ## Theorems for claim C5 -/

/-- C5: the RMSE computed by the Evaluation Layer, both in `evaluate_model`
and in `evaluate_projection`, equals `sqrt(mean((pred − target)²))` over
all samples and all output dimensions, with no entry excluded — the
statement holds for every target matrix, in particular ones with zero
entries. -/
theorem rmse_over_all_entries (n d : ℕ) (t p u : Fin n → Fin d → ℚ) :
    (evaluate_model_metrics t p u).2.2 =
      Real.sqrt (((∑ i : Fin n, ∑ j : Fin d, (p i j - t i j) ^ 2)
        / ((n : ℚ) * d) : ℚ)) ∧
    (evaluate_projection_metrics t p).2 =
      Real.sqrt (((∑ i : Fin n, ∑ j : Fin d, (p i j - t i j) ^ 2)
        / ((n : ℚ) * d) : ℚ)) := by
  have key : mean_squared_error t p =
      (∑ i : Fin n, ∑ j : Fin d, (p i j - t i j) ^ 2) / ((n : ℚ) * d) := by
    unfold mean_squared_error
    rw [← Finset.sum_div, div_div]
    congr 1
    rw [Finset.sum_comm]
    refine Finset.sum_congr rfl fun i _ => Finset.sum_congr rfl fun j _ => ?_
    ring
  constructor
  · show Real.sqrt (mean_squared_error t p) = _
    rw [key]
  · show Real.sqrt (mean_squared_error t p) = _
    rw [key]

/-! ## Theorems for claim C3 -/

/-- C3: for every sample whose de-normalized raw prediction already makes
the constraint residual zero, the Projection Engine's correction is exactly
the zero vector, and (the normalize/de-normalize pair being inverse) the
projected output of `get_average_predictions_projected` equals the raw
prediction — exactly, for every such sample. -/
theorem projection_zero_residual {n d : ℕ}
    (preds : Fin n → Fin d → ℚ) (w_inv : Matrix (Fin d) (Fin d) ℚ)
    (constraint : (Fin d → ℚ) → ℚ) (jacobian : (Fin d → ℚ) → Fin d → ℚ)
    (denormalize renormalize : (Fin d → ℚ) → (Fin d → ℚ))
    (hround : ∀ v, renormalize (denormalize v) = v) (i : Fin n)
    (hr : constraint (denormalize (preds i)) = 0) :
    projCorrection w_inv (jacobian (denormalize (preds i)))
        (constraint (denormalize (preds i))) = (fun _ => 0) ∧
    get_average_predictions_projected preds w_inv constraint jacobian
        denormalize renormalize i = preds i := by
  have hcorr : projCorrection w_inv (jacobian (denormalize (preds i)))
      (constraint (denormalize (preds i))) = (fun _ => 0) := by
    funext k
    unfold projCorrection
    rw [hr]
    ring
  refine ⟨hcorr, ?_⟩
  unfold get_average_predictions_projected
  dsimp only
  rw [hcorr]
  simp only [add_zero]
  exact hround (preds i)

/-- Weight matrix for the C3 witness: the identity (its own inverse). -/
def cW : Matrix (Fin 2) (Fin 2) ℚ := 1

/-- Constraint for the C3 witness: `y₀ − y₁ = 0`. -/
def cG : (Fin 2 → ℚ) → ℚ := fun y => y 0 - y 1

/-- Jacobian of `cG`. -/
def cJ : (Fin 2 → ℚ) → Fin 2 → ℚ := fun _ k => if k.val = 0 then 1 else -1

/-- Raw predictions for the C3 witness: the single sample `[1, 1]`, which
satisfies `cG` exactly. -/
def cPred : Fin 1 → Fin 2 → ℚ := fun _ _ => 1

/-- Witness for C3: with identity transforms and the satisfied constraint
`y₀ − y₁` at the sample `[1, 1]`, the correction is zero and the projected
output is the raw prediction. -/
theorem projection_zero_residual_witness :
    (∀ v : Fin 2 → ℚ, id (id v) = v) ∧ cG (id (cPred 0)) = 0 ∧
    (projCorrection cW (cJ (id (cPred 0))) (cG (id (cPred 0))) = (fun _ => 0) ∧
      get_average_predictions_projected cPred cW cG cJ id id 0 = cPred 0) :=
  ⟨fun _ => rfl, by simp [cG, cPred],
    projection_zero_residual cPred cW cG cJ id id (fun _ => rfl) 0
      (by simp [cG, cPred])⟩

/-! ## Theorems for claim C4 -/

/-- C4: with exactly one model in the ensemble, the predictive uncertainty
is identically zero for every sample and every output dimension (the
deviation from the ensemble mean is zero, so the value is `√0 / √1 = 0`,
not an undefined form). -/
theorem get_predictive_uncertainty_single_model {m n d : ℕ}
    (model_predictions : Fin m → Fin n → Fin d → ℚ) (hm : m = 1)
    (i : Fin n) (j : Fin d) :
    get_predictive_uncertainty model_predictions i j = 0 := by
  subst hm
  unfold get_predictive_uncertainty
  dsimp only
  simp [Fin.sum_univ_one]

/-- The single-model ensemble (constant prediction `3`) for the C4
witness. -/
def cEns : Fin 1 → Fin 1 → Fin 1 → ℚ := fun _ _ _ => 3

/-- Witness for C4: the one-model ensemble `cEns` has zero predictive
uncertainty at the (only) sample and dimension. -/
theorem get_predictive_uncertainty_single_model_witness :
    (1 = 1) ∧ get_predictive_uncertainty cEns 0 0 = 0 :=
  ⟨rfl, get_predictive_uncertainty_single_model cEns rfl 0 0⟩

/-! ## Theorems for claim C6 -/

/-- C6: for every test dataset and fitted Preprocessing Info, each entry of
the normalized matrices returned by `load_data` is the per-feature scaler
applied to the `log1p`-transformed entry when that feature index is in the
skewed list and to the raw entry otherwise — the skew transform happens
first and exactly on the listed columns (the empty-list guard changes
nothing), and the result is the column-wise assembly of per-feature scaler
outputs. -/
theorem load_data_entry {n din dout : ℕ} (pre : PreprocessingInfo din dout)
    (x : Fin n → Fin din → ℝ) (y : Fin n → Fin dout → ℝ)
    (i : Fin n) :
    (∀ j, (load_data pre x y).1 i j =
      pre.scalers_input j
        (if j ∈ pre.skewed_features_in then log1p (x i j) else x i j)) ∧
    (∀ j, (load_data pre x y).2 i j =
      pre.scalers_output j
        (if j ∈ pre.skewed_features_out then log1p (y i j) else y i j)) := by
  constructor
  · intro j
    unfold load_data
    dsimp only
    by_cases hin : 0 < pre.skewed_features_in.length
    · rw [if_pos hin]
    · rw [if_neg hin]
      have hempty : pre.skewed_features_in = [] :=
        List.length_eq_zero.mp (Nat.eq_zero_of_not_pos hin)
      rw [hempty]
      simp
  · intro j
    unfold load_data
    dsimp only
    by_cases hout : 0 < pre.skewed_features_out.length
    · rw [if_pos hout]
    · rw [if_neg hout]
      have hempty : pre.skewed_features_out = [] :=
        List.length_eq_zero.mp (Nat.eq_zero_of_not_pos hout)
      rw [hempty]
      simp

/-! ## Theorems for claim C10 -/

/-- The layer-count and width bounds `generate_random_architecture`
guarantees for the options `o`. -/
def archBounds (o : ArchOptions) (a : List ℕ) : Prop :=
  o.min_hidden_layers ≤ a.length ∧ a.length ≤ o.max_hidden_layers ∧
  ∀ x ∈ a, o.min_neurons_per_layer ≤ x ∧ x ≤ o.max_neurons_per_layer

theorem randint_bounds {a b : ℕ} (h : a ≤ b) (seed : ℕ) :
    a ≤ randint a b seed ∧ randint a b seed ≤ b := by
  unfold randint
  have hlt : seed % (b - a + 1) < b - a + 1 := Nat.mod_lt _ (Nat.succ_pos _)
  omega

theorem generate_random_architecture_bounds {o : ArchOptions}
    (hL : o.min_hidden_layers ≤ o.max_hidden_layers)
    (hN : o.min_neurons_per_layer ≤ o.max_neurons_per_layer) (oracle : ℕ → ℕ) :
    archBounds o (generate_random_architecture o.min_hidden_layers
      o.max_hidden_layers o.min_neurons_per_layer o.max_neurons_per_layer oracle) := by
  unfold archBounds generate_random_architecture
  refine ⟨?_, ?_, ?_⟩
  · simpa using (randint_bounds hL (oracle 0)).1
  · simpa using (randint_bounds hL (oracle 0)).2
  · intro x hx
    simp only [List.mem_map, List.mem_range] at hx
    obtain ⟨k, _, rfl⟩ := hx
    exact randint_bounds hN (oracle (k + 1))

theorem inBinB_disjoint {min_p max_p : ℚ} {n : ℕ} {i j : ℕ} (hij : i ≠ j)
    {p : ℚ} (hi : inBinB min_p max_p n i p = true)
    (hj : inBinB min_p max_p n j p = true) : False := by
  unfold inBinB bins at hi hj
  simp only [Bool.and_eq_true, decide_eq_true_eq] at hi hj
  obtain ⟨hi1, hi2⟩ := hi
  obtain ⟨hj1, hj2⟩ := hj
  have e : ∀ k : ℕ, (k : ℚ) * (max_p - min_p) / n =
      k * ((max_p - min_p) / n) := fun k => by ring
  rw [e] at hi1 hj1
  rw [e, Nat.cast_add, Nat.cast_one] at hi2 hj2
  set δ : ℚ := (max_p - min_p) / n with hδ
  have hstep : ∀ k : ℚ, (k + 1) * δ = k * δ + δ := fun k => by ring
  rw [hstep] at hi2 hj2
  have hd : 0 < δ := by linarith
  rcases lt_or_gt_of_ne hij with h | h
  · have hle : (i : ℚ) + 1 ≤ (j : ℚ) := by exact_mod_cast h
    have := mul_le_mul_of_nonneg_right hle hd.le
    rw [hstep] at this
    linarith
  · have hle : (j : ℚ) + 1 ≤ (i : ℚ) := by exact_mod_cast h
    have := mul_le_mul_of_nonneg_right hle hd.le
    rw [hstep] at this
    linarith

theorem getD_set_same (l : List Bool) (i : ℕ) (b : Bool) (h : i < l.length) :
    (l.set i b).getD i false = b := by
  induction l generalizing i with
  | nil => simp at h
  | cons a t ih =>
    cases i with
    | zero => rfl
    | succ k =>
        simp only [List.set, List.getD, List.getElem?_cons_succ] at *
        exact ih k (by simpa using h)

theorem getD_set_other (l : List Bool) (i j : ℕ) (b : Bool) (h : i ≠ j) :
    (l.set i b).getD j false = l.getD j false := by
  induction l generalizing i j with
  | nil => rfl
  | cons a t ih =>
    cases i with
    | zero =>
        cases j with
        | zero => exact absurd rfl h
        | succ m => rfl
    | succ k =>
        cases j with
        | zero => rfl
        | succ m =>
            simp only [List.set, List.getD, List.getElem?_cons_succ]
            exact ih k m (fun e => h (by rw [e]))

theorem count_true_set (l : List Bool) (i : ℕ) (hi : i < l.length)
    (hf : l.getD i false = false) :
    (l.set i true).count true = l.count true + 1 := by
  induction l generalizing i with
  | nil => simp at hi
  | cons a t ih =>
    cases i with
    | zero =>
        have : a = false := hf
        subst this
        simp [List.count_cons]
    | succ k =>
        have hk : t.getD k false = false := hf
        have hklen : k < t.length := by simpa using hi
        simp only [List.set, List.count_cons, ih k hklen hk]
        omega

theorem getD_true_of_count_eq_length (l : List Bool)
    (h : l.count true = l.length) (i : ℕ) (hi : i < l.length) :
    l.getD i false = true := by
  induction l generalizing i with
  | nil => simp at hi
  | cons a t ih =>
    have ha : a = true := by
      by_contra hne
      have : a = false := by cases a <;> simp_all
      subst this
      have : t.count true ≤ t.length := List.count_le_length _ _
      simp [List.count_cons] at h
      omega
    subst ha
    cases i with
    | zero => rfl
    | succ k =>
        have : t.count true = t.length := by
          simpa [List.count_cons] using h
        exact ih this k (by simpa using hi)

theorem getD_replicate_false (n i : ℕ) :
    (List.replicate n false).getD i false = false := by
  induction n generalizing i with
  | zero => rfl
  | succ m ih =>
    cases i with
    | zero => rfl
    | succ k => exact ih k

theorem arch_loop_spec (o : ArchOptions) (min_p max_p : ℚ) (oracle : ℕ → ℕ → ℕ)
    (hL : o.min_hidden_layers ≤ o.max_hidden_layers)
    (hN : o.min_neurons_per_layer ≤ o.max_neurons_per_layer) :
    ∀ fuel acc filled l,
      filled.length = o.n_steps →
      acc.length = filled.count true →
      (∀ a ∈ acc, archBounds o a) →
      (∀ i, i < o.n_steps →
        (acc.filter (fun a =>
          inBinB min_p max_p o.n_steps i (compute_parameters a))).length
          = if filled.getD i false then 1 else 0) →
      arch_loop o min_p max_p oracle fuel acc filled = some l →
      l.length = o.n_steps ∧ (∀ a ∈ l, archBounds o a) ∧
      ∀ i, i < o.n_steps →
        (l.filter (fun a =>
          inBinB min_p max_p o.n_steps i (compute_parameters a))).length = 1 := by
  intro fuel
  induction fuel with
  | zero =>
      intro acc filled l _ _ _ _ h
      simp [arch_loop] at h
  | succ fuel ih =>
      intro acc filled l hlen hcount hbounds hfilter hres
      rw [arch_loop] at hres
      by_cases hstop : o.n_steps ≤ acc.length
      · rw [if_pos hstop] at hres
        obtain rfl : acc = l := Option.some.inj hres
        have hcle : filled.count true ≤ filled.length := List.count_le_length _ _
        have hacc_n : acc.length = o.n_steps := by omega
        refine ⟨hacc_n, hbounds, ?_⟩
        intro i hi
        have hall : filled.count true = filled.length := by omega
        have htrue : filled.getD i false = true :=
          getD_true_of_count_eq_length filled hall i (by omega)
        rw [hfilter i hi, if_pos htrue]
      · rw [if_neg hstop] at hres
        dsimp only at hres
        rcases hfb : findBin min_p max_p o.n_steps filled
            ((compute_parameters (generate_random_architecture o.min_hidden_layers
              o.max_hidden_layers o.min_neurons_per_layer o.max_neurons_per_layer
              (oracle fuel)) : ℚ)) with _ | i
        · rw [hfb] at hres
          exact ih acc filled l hlen hcount hbounds hfilter hres
        · rw [hfb] at hres
          unfold findBin at hfb
          have hpred := List.find?_some hfb
          have hmem : i ∈ List.range o.n_steps := List.mem_of_find?_eq_some hfb
          have hi_lt : i < o.n_steps := List.mem_range.mp hmem
          simp only [Bool.and_eq_true, Bool.not_eq_true'] at hpred
          obtain ⟨hbin, hunfilled⟩ := hpred
          have hilen : i < filled.length := by omega
          apply ih _ _ _ ?_ ?_ ?_ ?_ hres
          · rw [List.length_set]; exact hlen
          · rw [List.length_append, hcount, count_true_set filled i hilen hunfilled]
            rfl
          · intro a ha
            rcases List.mem_append.mp ha with h | h
            · exact hbounds a h
            · rw [List.mem_singleton.mp h]
              exact generate_random_architecture_bounds hL hN (oracle fuel)
          · intro j hj
            rw [List.filter_append, List.length_append]
            by_cases hji : j = i
            · subst hji
              rw [hfilter j hj, if_neg (by rw [hunfilled]; exact Bool.false_ne_true),
                getD_set_same filled j true hilen]
              simp only [List.filter, hbin, if_pos]
              rfl
            · rw [getD_set_other filled i j true (fun e => hji (e.symm))]
              rw [hfilter j hj]
              have hnot : inBinB min_p max_p o.n_steps j
                  ((compute_parameters (generate_random_architecture
                    o.min_hidden_layers o.max_hidden_layers
                    o.min_neurons_per_layer o.max_neurons_per_layer
                    (oracle fuel)) : ℚ)) = false := by
                by_contra hcon
                exact inBinB_disjoint hji
                  (Bool.not_eq_false _ |>.mp hcon) hbin
              simp only [List.filter, hnot]
              rfl

/-- C10: whenever `get_random_architectures` returns, it returns exactly
`n_steps` architectures, each with between `min_hidden_layers` and
`max_hidden_layers` layers and every width between `min_neurons_per_layer`
and `max_neurons_per_layer`; and each of the `n_steps` uniform bins of
`[min_parameters, max_parameters]` contains the parameter count of exactly
one returned architecture (so the bins are pairwise distinct and every bin
is hit by the time the loop terminates). -/
theorem get_random_architectures_spec (o : ArchOptions) (oracle : ℕ → ℕ → ℕ)
    (fuel : ℕ) (l : List (List ℕ))
    (hL : o.min_hidden_layers ≤ o.max_hidden_layers)
    (hN : o.min_neurons_per_layer ≤ o.max_neurons_per_layer)
    (hres : get_random_architectures o oracle fuel = some l) :
    l.length = o.n_steps ∧ (∀ a ∈ l, archBounds o a) ∧
    ∀ i, i < o.n_steps →
      (l.filter (fun a => inBinB (min_parameters o) (max_parameters o)
        o.n_steps i (compute_parameters a))).length = 1 := by
  apply arch_loop_spec o (min_parameters o) (max_parameters o) oracle hL hN
    fuel [] (List.replicate o.n_steps false) l
  · simp
  · simp [List.count_replicate]
  · intro a ha
    simp at ha
  · intro i hi
    rw [getD_replicate_false]
    simp
  · exact hres

/-- Options for the C10 witness: widths in `[1, 3]`, exactly one hidden
layer, two sweep steps. -/
def wO : ArchOptions := ⟨1, 3, 2, 1, 1⟩

/-- Random stream for the C10 witness: width seed `0` (width 1) on the
first iteration, width seed `1` (width 2) on the second. -/
def wOracle : ℕ → ℕ → ℕ := fun step _ => if step = 2 then 0 else 1

/-- Witness for C10: with options `wO` and stream `wOracle`, the loop
returns `[[1], [2]]` after three iterations of fuel, and the conclusion of
the specification holds there. -/
theorem get_random_architectures_spec_witness :
    wO.min_hidden_layers ≤ wO.max_hidden_layers ∧
    wO.min_neurons_per_layer ≤ wO.max_neurons_per_layer ∧
    get_random_architectures wO wOracle 3 = some [[1], [2]] ∧
    ([[1], [2]] : List (List ℕ)).length = wO.n_steps ∧
    (∀ a ∈ ([[1], [2]] : List (List ℕ)), archBounds wO a) ∧
    ∀ i, i < wO.n_steps →
      (([[1], [2]] : List (List ℕ)).filter (fun a =>
        inBinB (min_parameters wO) (max_parameters wO) wO.n_steps i
          (compute_parameters a))).length = 1 := by
  have hres : get_random_architectures wO wOracle 3 = some [[1], [2]] := by
    have hb0 : bins 21 63 2 0 = 21 := by unfold bins; norm_num
    have hb1 : bins 21 63 2 1 = 42 := by unfold bins; norm_num
    have hb2 : bins 21 63 2 2 = 63 := by unfold bins; norm_num
    have hi00 : inBinB 21 63 2 0 21 = true := by
      unfold inBinB; rw [hb0, hb1]; decide
    have hi042 : inBinB 21 63 2 0 42 = false := by
      unfold inBinB; rw [hb0, hb1]; decide
    have hi142 : inBinB 21 63 2 1 42 = true := by
      unfold inBinB; rw [hb1, hb2]; decide
    have hfb1 : findBin 21 63 2 [false, false] 21 = some 0 := by
      unfold findBin
      rw [show List.range 2 = [0, 1] from rfl]
      simp [List.find?, hi00]
    have hfb2 : findBin 21 63 2 [true, false] 42 = some 1 := by
      unfold findBin
      rw [show List.range 2 = [0, 1] from rfl]
      simp [List.find?, hi042, hi142]
    unfold get_random_architectures
    rw [show ((min_parameters wO : ℕ) : ℚ) = 21 by
      rw [show min_parameters wO = 21 from rfl]; norm_num]
    rw [show ((max_parameters wO : ℕ) : ℚ) = 63 by
      rw [show max_parameters wO = 63 from rfl]; norm_num]
    rw [show List.replicate wO.n_steps false = [false, false] from rfl]
    rw [show (3 : ℕ) = 2 + 1 from rfl, arch_loop]
    rw [if_neg (by decide)]
    simp only [show generate_random_architecture wO.min_hidden_layers
        wO.max_hidden_layers wO.min_neurons_per_layer wO.max_neurons_per_layer
        (wOracle 2) = [1] from rfl,
      show ((compute_parameters [1] : ℕ) : ℚ) = 21 by
        rw [show compute_parameters [1] = 21 from rfl]; norm_num]
    rw [show wO.n_steps = 2 from rfl, hfb1]
    simp only [List.nil_append, List.set]
    rw [show (2 : ℕ) = 1 + 1 from rfl, arch_loop]
    rw [if_neg (by decide)]
    simp only [show generate_random_architecture wO.min_hidden_layers
        wO.max_hidden_layers wO.min_neurons_per_layer wO.max_neurons_per_layer
        (wOracle 1) = [2] from rfl,
      show ((compute_parameters [2] : ℕ) : ℚ) = 42 by
        rw [show compute_parameters [2] = 42 from rfl]; norm_num]
    rw [show wO.n_steps = 2 from rfl, hfb2]
    simp only [List.set]
    rw [show (1 : ℕ) = 0 + 1 from rfl, arch_loop]
    rw [if_pos (by decide)]
    norm_num
  obtain ⟨h1, h2, h3⟩ := get_random_architectures_spec wO wOracle 3 [[1], [2]]
    (by decide) (by decide) hres
  exact ⟨by decide, by decide, hres, h1, h2, h3⟩

/-! ## Theorems for claim C7 -/

/-- C7: with `RETRAIN_MODEL` disabled and `load_checkpoints` failing with
`FileNotFoundError`, all three checkpoint-loading orchestrators raise the
`ValueError` carrying the actionable message — not the raw
`FileNotFoundError` — and return no trained models. -/
theorem checkpoint_missing_actionable_error {α β : Type}
    (train_nn train_pinn : α × LossesDict) (train_fig : α)
    (load_nn load_pinn : Except RunError (α × LossesDict))
    (load_fig : Except RunError β)
    (hnn : load_nn = .error .fileNotFoundError)
    (hpinn : load_pinn = .error .fileNotFoundError)
    (hfig : load_fig = .error .fileNotFoundError) :
    get_trained_nn_main false train_nn load_nn =
        .error (.valueError checkpointMsg) ∧
    get_trained_pinn_main false train_pinn load_pinn =
        .error (.valueError checkpointMsg) ∧
    get_trained_nn_fig6a false train_fig load_fig =
        .error (.valueError checkpointMsg) ∧
    RunError.valueError checkpointMsg ≠ RunError.fileNotFoundError ∧
    (∀ v, get_trained_nn_main false train_nn load_nn ≠ .ok v) ∧
    (∀ v, get_trained_pinn_main false train_pinn load_pinn ≠ .ok v) ∧
    (∀ v, get_trained_nn_fig6a false train_fig load_fig ≠ .ok v) := by
  subst hnn hpinn hfig
  refine ⟨rfl, rfl, rfl, by simp, ?_, ?_, ?_⟩ <;> intro v h <;> exact
    Except.noConfusion h

/-- Witness for C7 at concrete model/loss payloads. -/
theorem checkpoint_missing_actionable_error_witness :
    ((Except.error RunError.fileNotFoundError :
        Except RunError (Unit × LossesDict)) =
      .error .fileNotFoundError) ∧
    (get_trained_nn_main false ((), ⟨1, 1, 1⟩)
        (.error .fileNotFoundError : Except RunError (Unit × LossesDict)) =
      .error (.valueError checkpointMsg) ∧
    get_trained_pinn_main false ((), ⟨1, 1, 1⟩)
        (.error .fileNotFoundError : Except RunError (Unit × LossesDict)) =
      .error (.valueError checkpointMsg) ∧
    get_trained_nn_fig6a false ()
        (.error .fileNotFoundError : Except RunError Unit) =
      .error (.valueError checkpointMsg) ∧
    RunError.valueError checkpointMsg ≠ RunError.fileNotFoundError ∧
    (∀ v, get_trained_nn_main false ((), ⟨1, 1, 1⟩)
        (.error .fileNotFoundError : Except RunError (Unit × LossesDict)) ≠
      .ok v) ∧
    (∀ v, get_trained_pinn_main false ((), ⟨1, 1, 1⟩)
        (.error .fileNotFoundError : Except RunError (Unit × LossesDict)) ≠
      .ok v) ∧
    (∀ v, get_trained_nn_fig6a false ()
        (.error .fileNotFoundError : Except RunError Unit) ≠ .ok v)) :=
  ⟨rfl, checkpoint_missing_actionable_error ((), ⟨1, 1, 1⟩) ((), ⟨1, 1, 1⟩) ()
    (.error .fileNotFoundError) (.error .fileNotFoundError)
    (.error .fileNotFoundError) rfl rfl rfl⟩

end LTP
